import Mathlib

/-
Verification development for the weapon-OCR backend (src/main.py).

The pipeline embedded here follows the `analyze` endpoint of src/main.py:
`to_image_part` (base64/data-URL decoding and MIME inference, lines 79-89),
the backend raw-text extraction (line 138), the empty-result check
(lines 140-142), the markdown-fence cleanup (line 145), JSON parsing
(line 146, a model of Python's json.loads restricted to integer numerals),
field extraction with Python truthiness and str coercion (lines 148-151),
the conditional e-mail alert (lines 154-175) and the error mapping of the
two except clauses (lines 184-189).  External library behaviour
(json.loads, base64.b64decode, the HTTP transport) is modelled by
executable Lean functions; everything else is translated directly from the
source.
-/

namespace WeaponOCR

/-- Python ASCII whitespace as removed by str.strip: space, tab, newline,
carriage return, vertical tab and form feed. -/
def isPyWs (c : Char) : Bool :=
  c == ' ' || c == '\t' || c == '\n' || c == '\r' ||
  c == Char.ofNat 11 || c == Char.ofNat 12

/-- JSON whitespace accepted between tokens by json.loads. -/
def isJsonWs (c : Char) : Bool :=
  c == ' ' || c == '\t' || c == '\n' || c == '\r'

/-- The double-quote character. -/
def quoteChar : Char := Char.ofNat 34

/-- The backslash character. -/
def backslashChar : Char := Char.ofNat 92

/-- The backtick character that opens and closes markdown fences. -/
def backtickChar : Char := Char.ofNat 96

/-- Drop leading Python whitespace (the left half of str.strip). -/
def dropLead (l : List Char) : List Char := l.dropWhile isPyWs

/-- Drop trailing Python whitespace (the right half of str.strip). -/
def dropTrail (l : List Char) : List Char := (l.reverse.dropWhile isPyWs).reverse

/-- Model of Python str.strip on character lists. -/
def pyStrip (l : List Char) : List Char := dropTrail (dropLead l)

/-- Model of Python str.removeprefix on character lists. -/
def removePrefixL (pre l : List Char) : List Char :=
  if pre <+: l then l.drop pre.length else l

/-- Model of Python str.removesuffix on character lists. -/
def removeSuffixL (suf l : List Char) : List Char :=
  if suf <:+ l then l.take (l.length - suf.length) else l

/-- The cleanup of line 145 of src/main.py:
raw_text.strip().removeprefix("```json").removesuffix("```").strip(). -/
def cleanChars (l : List Char) : List Char :=
  pyStrip (removeSuffixL "```".data (removePrefixL "```json".data (pyStrip l)))

/-- String-level wrapper for the fence cleanup of line 145. -/
def cleanText (s : String) : String := String.mk (cleanChars s.data)

/-- JSON values as produced by json.loads, with numbers restricted to
integers (float literals are outside this model; none of the verified
claims involves them).  Objects keep their members in insertion order. -/
inductive Json where
  | null
  | bool (b : Bool)
  | num (n : Int)
  | str (s : String)
  | arr (elems : List Json)
  | obj (members : List (String × Json))

/-- Python truthiness of a decoded JSON value: None, False, 0, empty
strings and empty containers are falsy, everything else truthy. -/
def pyTruthy : Json → Bool
  | .null => false
  | .bool b => b
  | .num n => n != 0
  | .str s => !s.data.isEmpty
  | .arr l => !l.isEmpty
  | .obj l => !l.isEmpty

/-- Hexadecimal digit character for Python repr escapes. -/
def hexDigitChar (n : Nat) : Char :=
  if n < 10 then Char.ofNat (48 + n) else Char.ofNat (87 + n)

/-- Escape of one character inside a Python string repr with quote q. -/
def pyEscapeChar (q : Char) (c : Char) : List Char :=
  if c == backslashChar then [backslashChar, backslashChar]
  else if c == q then [backslashChar, q]
  else if c == '\n' then [backslashChar, 'n']
  else if c == '\r' then [backslashChar, 'r']
  else if c == '\t' then [backslashChar, 't']
  else if c.toNat < 32 || c.toNat == 127 then
    [backslashChar, 'x', hexDigitChar (c.toNat / 16), hexDigitChar (c.toNat % 16)]
  else [c]

/-- Model of Python repr for strings: single quotes, switching to double
quotes when the string holds a single quote but no double quote. -/
def pyReprStr (s : String) : String :=
  let q := if s.data.contains (Char.ofNat 39) && !(s.data.contains quoteChar)
           then quoteChar else Char.ofNat 39
  String.mk (q :: (s.data.map (pyEscapeChar q)).flatten ++ [q])

mutual

/-- Model of Python repr on decoded JSON values. -/
def pyRepr : Json → String
  | .null => "None"
  | .bool b => if b then "True" else "False"
  | .num n => toString n
  | .str s => pyReprStr s
  | .arr l => "[" ++ pyReprElems l ++ "]"
  | .obj l => "\x7b" ++ pyReprMembers l ++ "\x7d"

/-- Comma-separated reprs of the elements of a Python list. -/
def pyReprElems : List Json → String
  | [] => ""
  | [j] => pyRepr j
  | j :: js => pyRepr j ++ ", " ++ pyReprElems js

/-- Comma-separated key: value reprs of the items of a Python dict. -/
def pyReprMembers : List (String × Json) → String
  | [] => ""
  | [(k, v)] => pyReprStr k ++ ": " ++ pyRepr v
  | (k, v) :: rest => pyReprStr k ++ ": " ++ pyRepr v ++ ", " ++ pyReprMembers rest

end

/-- Model of Python str on decoded JSON values: the identity on strings,
repr on everything else (None, booleans, numbers, lists, dicts). -/
def pyStr (j : Json) : String :=
  match j with
  | .str s => s
  | j => pyRepr j

/-- Model of dict.get with json.loads duplicate-key semantics: the last
binding of a key wins; none when the key is absent. -/
def pyDictGet (members : List (String × Json)) (k : String) : Option Json :=
  ((members.filter (fun p => p.1 == k)).getLast?).map (fun p => p.2)

/-- Model of dict.get with a default, as used on lines 148-151. -/
def pyDictGetD (members : List (String × Json)) (k : String) (d : Json) : Json :=
  (pyDictGet members k).getD d

/-- Drop leading JSON whitespace between tokens. -/
def skipWs : List Char → List Char
  | [] => []
  | c :: cs => if isJsonWs c then skipWs cs else c :: cs

/-- Decimal digit test on the ASCII code point. -/
def isDigitChar (c : Char) : Bool := 48 ≤ c.toNat && c.toNat ≤ 57

/-- Value of one hexadecimal digit in a JSON \u escape. -/
def hexVal (c : Char) : Option Nat :=
  if isDigitChar c then some (c.toNat - 48)
  else if 97 ≤ c.toNat && c.toNat ≤ 102 then some (c.toNat - 87)
  else if 65 ≤ c.toNat && c.toNat ≤ 70 then some (c.toNat - 55)
  else none

/-- Decoding of a single-character JSON escape sequence. -/
def escChar (e : Char) : Option Char :=
  if e == quoteChar then some quoteChar
  else if e == backslashChar then some backslashChar
  else if e == '/' then some '/'
  else if e == 'b' then some (Char.ofNat 8)
  else if e == 'f' then some (Char.ofNat 12)
  else if e == 'n' then some '\n'
  else if e == 'r' then some '\r'
  else if e == 't' then some '\t'
  else none

/-- Parser for the body of a JSON string literal, after the opening quote;
returns the decoded characters and the input remaining after the closing
quote.  Raw control characters are rejected as in json.loads strict mode. -/
def parseStringBody : Nat → List Char → Option (List Char × List Char)
  | 0, _ => none
  | _ + 1, [] => none
  | fuel + 1, c :: rest =>
    if c == quoteChar then some ([], rest)
    else if c == backslashChar then
      match rest with
      | [] => none
      | e :: rest2 =>
        if e == 'u' then
          match rest2 with
          | h1 :: h2 :: h3 :: h4 :: rest3 =>
            match hexVal h1, hexVal h2, hexVal h3, hexVal h4 with
            | some a, some b, some c2, some d =>
              match parseStringBody fuel rest3 with
              | some (s, r) =>
                some (Char.ofNat (((a * 16 + b) * 16 + c2) * 16 + d) :: s, r)
              | none => none
            | _, _, _, _ => none
          | _ => none
        else
          match escChar e with
          | some ec =>
            match parseStringBody fuel rest2 with
            | some (s, r) => some (ec :: s, r)
            | none => none
          | none => none
    else if c.toNat < 32 then none
    else
      match parseStringBody fuel rest with
      | some (s, r) => some (c :: s, r)
      | none => none

/-- Numeric value of a list of decimal digit characters. -/
def digitsToNat (l : List Char) : Nat :=
  l.foldl (fun a c => a * 10 + (c.toNat - 48)) 0

/-- Parser for a JSON integer numeral (optional minus sign, digits, no
leading zeros).  Fraction and exponent parts are outside this model. -/
def parseNumber (cs : List Char) : Option (Json × List Char) :=
  let neg := cs.head? == some '-'
  let cs1 := if neg then cs.tail else cs
  let digits := cs1.takeWhile isDigitChar
  let rest := cs1.dropWhile isDigitChar
  if digits.isEmpty then none
  else if decide (1 < digits.length) && digits.head? == some '0' then none
  else
    some (.num (if neg then -(digitsToNat digits : Int) else (digitsToNat digits : Int)), rest)

/-- Parser for one `"key": value` member of a JSON object, parameterised by
the value parser. -/
def parseMember (pv : List Char → Option (Json × List Char)) (cs : List Char) :
    Option ((String × Json) × List Char) :=
  match cs with
  | [] => none
  | c :: rest =>
    if c == quoteChar then
      match parseStringBody (rest.length + 1) rest with
      | some (k, r1) =>
        match skipWs r1 with
        | ':' :: r2 =>
          match pv (skipWs r2) with
          | some (v, r3) => some ((String.mk k, v), r3)
          | none => none
        | _ => none
      | none => none
    else none

/-- Loop over the remaining elements of a JSON array after the first one,
parameterised by the value parser. -/
def parseArrLoop (pv : List Char → Option (Json × List Char)) :
    Nat → List Json → List Char → Option (Json × List Char)
  | 0, _, _ => none
  | fuel + 1, acc, cs =>
    match cs with
    | ']' :: r => some (.arr acc.reverse, r)
    | ',' :: r =>
      match pv (skipWs r) with
      | some (v, r1) => parseArrLoop pv fuel (v :: acc) (skipWs r1)
      | none => none
    | _ => none

/-- Loop over the remaining members of a JSON object after the first one,
parameterised by the value parser. -/
def parseObjLoop (pv : List Char → Option (Json × List Char)) :
    Nat → List (String × Json) → List Char → Option (Json × List Char)
  | 0, _, _ => none
  | fuel + 1, acc, cs =>
    match cs with
    | '}' :: r => some (.obj acc.reverse, r)
    | ',' :: r =>
      match parseMember pv (skipWs r) with
      | some (kv, r1) => parseObjLoop pv fuel (kv :: acc) (skipWs r1)
      | none => none
    | _ => none

/-- Recursive descent parser for one JSON value; returns the value and the
unconsumed remainder of the input. -/
def parseVal : Nat → List Char → Option (Json × List Char)
  | 0, _ => none
  | fuel + 1, cs =>
    match cs with
    | [] => none
    | c :: rest =>
      if c == 'n' then
        match rest with
        | 'u' :: 'l' :: 'l' :: r => some (.null, r)
        | _ => none
      else if c == 't' then
        match rest with
        | 'r' :: 'u' :: 'e' :: r => some (.bool true, r)
        | _ => none
      else if c == 'f' then
        match rest with
        | 'a' :: 'l' :: 's' :: 'e' :: r => some (.bool false, r)
        | _ => none
      else if c == quoteChar then
        match parseStringBody (rest.length + 1) rest with
        | some (s, r) => some (.str (String.mk s), r)
        | none => none
      else if c == '-' || isDigitChar c then parseNumber cs
      else if c == '[' then
        match skipWs rest with
        | ']' :: r => some (.arr [], r)
        | cs1 =>
          match parseVal fuel cs1 with
          | some (v, r1) => parseArrLoop (parseVal fuel) fuel [v] (skipWs r1)
          | none => none
      else if c == '{' then
        match skipWs rest with
        | '}' :: r => some (.obj [], r)
        | cs1 =>
          match parseMember (parseVal fuel) cs1 with
          | some (kv, r1) => parseObjLoop (parseVal fuel) fuel [kv] (skipWs r1)
          | none => none
      else none

/-- Model of json.loads on character lists: leading whitespace is skipped,
one value is parsed, and only whitespace may remain. -/
def parseJsonChars (l : List Char) : Option Json :=
  match parseVal (2 * l.length + 4) (skipWs l) with
  | some (v, rest) => if (skipWs rest).isEmpty then some v else none
  | none => none

/-- Model of json.loads on strings. -/
def parseJsonStr (s : String) : Option Json := parseJsonChars s.data

/-- Value of one character of the standard base64 alphabet. -/
def b64CharVal (c : Char) : Option Nat :=
  if 65 ≤ c.toNat && c.toNat ≤ 90 then some (c.toNat - 65)
  else if 97 ≤ c.toNat && c.toNat ≤ 122 then some (c.toNat - 71)
  else if 48 ≤ c.toNat && c.toNat ≤ 57 then some (c.toNat + 4)
  else if c == '+' then some 62
  else if c == '/' then some 63
  else none

/-- Decoder for base64 four-character groups; `=` padding may close a
group, a trailing group of fewer than four characters is an error
(Python's binascii incorrect-padding error). -/
def b64Quads : List Char → Option (List Nat)
  | [] => some []
  | a :: b :: c :: d :: rest =>
    match b64CharVal a, b64CharVal b with
    | some va, some vb =>
      if c == '=' then
        if d == '=' then
          match b64Quads rest with
          | some bytes => some ((va * 4 + vb / 16) :: bytes)
          | none => none
        else none
      else
        match b64CharVal c with
        | some vc =>
          if d == '=' then
            match b64Quads rest with
            | some bytes => some ((va * 4 + vb / 16) :: ((vb % 16) * 16 + vc / 4) :: bytes)
            | none => none
          else
            match b64CharVal d with
            | some vd =>
              match b64Quads rest with
              | some bytes =>
                some ((va * 4 + vb / 16) :: ((vb % 16) * 16 + vc / 4) ::
                      ((vc % 4) * 64 + vd) :: bytes)
              | none => none
            | none => none
        | none => none
    | _, _ => none
  | _ => none

/-- Model of base64.b64decode with validate=False: characters outside the
alphabet are discarded first, then the quads are decoded; none models the
binascii error raised on malformed input. -/
def b64decode (s : String) : Option (List Nat) :=
  b64Quads (s.data.filter (fun c => (b64CharVal c).isSome || c == '='))

/-- Part of the input before the first comma (the data-URL header used on
lines 82-83 of src/main.py). -/
def headerOf (data_url : String) : List Char :=
  data_url.data.takeWhile (fun c => c != ',')

/-- Part of the input handed to base64.b64decode: after the first comma
when one exists, the whole string otherwise (lines 81-85). -/
def b64Body (data_url : String) : List Char :=
  if ',' ∈ data_url.data then
    (data_url.data.dropWhile (fun c => c != ',')).tail
  else data_url.data

/-- MIME inference of line 83/86 of src/main.py: image/jpeg when the
header names jpeg or jpg, image/png for any other header, image/jpeg when
there is no comma-delimited header at all. -/
def inferMime (data_url : String) : String :=
  if ',' ∈ data_url.data then
    if "image/jpeg".data <:+: headerOf data_url ∨ "image/jpg".data <:+: headerOf data_url
    then "image/jpeg" else "image/png"
  else "image/jpeg"

/-- Typed binary image part handed to the inference backend. -/
structure ImagePart where
  mime_type : String
  data : List Nat
deriving DecidableEq

/-- Model of to_image_part (lines 79-89 of src/main.py); none models the
binascii error propagating out of base64.b64decode. -/
def to_image_part (data_url : String) : Option ImagePart :=
  match b64decode (String.mk (b64Body data_url)) with
  | some bytes => some { mime_type := inferMime data_url, data := bytes }
  | none => none

/-- The four-field detection result returned by the endpoint. -/
structure DetectionResult where
  weapon_detected : Bool
  gun_detected : Bool
  knife_detected : Bool
  extracted_text : String
deriving DecidableEq

/-- Failure classes of the analyze pipeline, following the spec's error
taxonomy; in the source they are the binascii error from to_image_part,
any exception out of the backend call, the ValueError of line 142, the
JSONDecodeError of line 146 and the AttributeError raised by data.get when
the parsed JSON is not an object. -/
inductive Err where
  | decodeError
  | backendUnavailable (msg : String)
  | emptyInferenceResult
  | malformedResponse
  | notAnObject
deriving DecidableEq

/-- Detail string of the HTTP 500 response for each failure, from the two
except clauses of lines 184-189 (str(e) for the generic clause; the
library messages of the base64 and attribute errors are abbreviated). -/
def errDetail : Err → String
  | .decodeError => "Invalid base64-encoded payload"
  | .backendUnavailable msg => msg
  | .emptyInferenceResult =>
      "Empty response received from the vision model. Content may be blocked by safety filters."
  | .malformedResponse => "Invalid JSON format returned from the AI model."
  | .notAnObject => "object has no attribute get"

/-- Externally visible outcome of one POST /analyze call. -/
inductive HttpResult where
  | success (result : DetectionResult)
  | failure (status : Nat) (detail : String)
deriving DecidableEq

/-- Mapping of the pipeline outcome to the HTTP layer: a validated result
on success, HTTP 500 with a detail string on every failure. -/
def httpOf : Except Err DetectionResult → HttpResult
  | .ok r => .success r
  | .error e => .failure 500 (errDetail e)

/-- Python `a or b` for strings: b when a is empty, a otherwise. -/
def pyOrStr (a b : String) : String := if a.data.isEmpty then b else a

/-- Raw text extraction of line 138:
getattr(response, "text", None) or getattr(response, "output_text", "").
The text field is None when the attribute is absent or null; output_text
is already the getattr result with its empty-string default. -/
def rawTextOf (text : Option String) (output_text : String) : String :=
  match text with
  | some s => pyOrStr s output_text
  | none => output_text

/-- Validation stage of lines 145-151 and the two error mappings: fence
cleanup, JSON parse and field extraction with Python semantics. -/
def validateResponse (raw_text : String) : Except Err DetectionResult :=
  let clean_text := cleanText raw_text
  match parseJsonStr clean_text with
  | none => .error .malformedResponse
  | some (.obj members) =>
    .ok { weapon_detected := pyTruthy (pyDictGetD members "weapon_detected" (.bool false))
        , gun_detected := pyTruthy (pyDictGetD members "gun_detected" (.bool false))
        , knife_detected := pyTruthy (pyDictGetD members "knife_detected" (.bool false))
        , extracted_text := pyStr (pyDictGetD members "extracted_text" (.str "")) }
  | some _ => .error .notAnObject

/-- Python str of a boolean, as interpolated by the f-string template. -/
def pyBoolStr (b : Bool) : String := if b then "True" else "False"

/-- Image source normalisation of lines 156-158: the input itself when it
already starts with data:image, otherwise the jpeg data-URL prefix is
prepended. -/
def imgSrcOf (image_base64 : String) : String :=
  if "data:image".data.isPrefixOf image_base64.data then image_base64
  else "data:image/jpeg;base64," ++ image_base64

/-- HTML alert body template of lines 161-171 of src/main.py. -/
def alertHtmlBody (weapon gun knife : Bool) (extracted : String) (img_src : String) : String :=
  "<h3>Security Alert</h3>" ++
  "<p><strong>Weapon detected:</strong> " ++ pyBoolStr weapon ++ "</p>" ++
  "<p><strong>Gun detected:</strong> " ++ pyBoolStr gun ++ "</p>" ++
  "<p><strong>Knife detected:</strong> " ++ pyBoolStr knife ++ "</p>" ++
  "<p><strong>Extracted text from image:</strong></p>" ++
  "<pre>" ++ (if extracted.data.isEmpty then "None" else extracted) ++ "</pre>" ++
  "<hr>" ++
  "<h4>Snapshot Image:</h4>" ++
  "<img src=\"" ++ img_src ++
  "\" alt=\"Security Snapshot\"" ++
  " style=\"max-width: 600px; height: auto; border: 2px solid #ff0000; border-radius: 5px;\"/>"

/-- Behaviour of the external e-mail microservice for one call: either it
answers and its JSON success field is truthy or not, or the request fails
(timeout, transport error, unparsable body) and requests.post or
response.json raise. -/
inductive EmailOutcome where
  | response (success : Bool)
  | failure

/-- Model of send_email_via_smtp (lines 47-77 of src/main.py): false with
a log when no service URL is configured, the service's success flag when
it answers, false with a log when the call raises; the function itself
never raises. -/
def send_email_via_smtp (email_service_url recipient subject html_body : String)
    (outcome : EmailOutcome) : Bool :=
  if email_service_url.data.isEmpty then false
  else
    match outcome with
    | .response ok => ok
    | .failure => false

/-- Process configuration read from the environment at startup; the empty
string models an unset variable (Python None is falsy exactly like ""). -/
structure Config where
  emailServiceUrl : String
  alertEmail : String

/-- One alert message composed for the notification service. -/
structure Alert where
  recipient : String
  subject : String
  html : String
deriving DecidableEq

/-- Result of one analyze call: the HTTP-visible response plus the
notification attempt (at most one) with its delivery outcome. -/
structure AnalyzeOutcome where
  response : Except Err DetectionResult
  notification : Option (Alert × Bool)

/-- Behaviour of the inference backend for one call: a response carrying
the optional text / output_text attributes, or an exception. -/
inductive BackendBehavior where
  | ok (text : Option String) (output_text : String)
  | failure (msg : String)

/-- Model of the analyze endpoint (lines 102-189 of src/main.py),
parameterised by the configuration and the behaviour of the two external
services. -/
def analyze (image_base64 : String) (cfg : Config) (backend : BackendBehavior)
    (emailOutcome : EmailOutcome) : AnalyzeOutcome :=
  match to_image_part image_base64 with
  | none => { response := .error .decodeError, notification := none }
  | some _ =>
    match backend with
    | .failure msg => { response := .error (.backendUnavailable msg), notification := none }
    | .ok text output_text =>
      let raw_text := rawTextOf text output_text
      if raw_text.data.isEmpty then
        { response := .error .emptyInferenceResult, notification := none }
      else
        match validateResponse raw_text with
        | .error e => { response := .error e, notification := none }
        | .ok r =>
          if r.weapon_detected && !cfg.alertEmail.data.isEmpty then
            let img_src := imgSrcOf image_base64
            let subject := "URGENT: Weapon Detected"
            let html_body :=
              alertHtmlBody r.weapon_detected r.gun_detected r.knife_detected
                r.extracted_text img_src
            let email_success :=
              send_email_via_smtp cfg.emailServiceUrl cfg.alertEmail subject
                html_body emailOutcome
            { response := .ok r
            , notification := some ({ recipient := cfg.alertEmail
                                    , subject := subject
                                    , html := html_body }, email_success) }
          else { response := .ok r, notification := none }

/-- Spec-side boolean extraction, written from the spec's words
`bool(field or False)`: false when the field is absent, its truthiness
otherwise (bool(x or False) = bool(x) for present x). -/
def specBoolField : Option Json → Bool
  | none => false
  | some v => pyTruthy v

/-- Spec-side string extraction, written from the spec's words
`str(field or "")`: the empty string when the field is absent or falsy,
str of the field otherwise. -/
def specStrField : Option Json → String
  | none => ""
  | some v => if pyTruthy v then pyStr v else ""

/-- Substring containment, the semantics of Python's `in` on strings. -/
def containsStr (s sub : String) : Prop := sub.data <:+: s.data

/-! Helper lemmas shared by several claims. -/

theorem string_isEmpty_iff (s : String) : s.data.isEmpty = true ↔ s = "" := by
  rw [String.ext_iff]
  cases h : s.data <;> simp

theorem pyTruthy_pyDictGetD_bool (m : List (String × Json)) (k : String) :
    pyTruthy (pyDictGetD m k (.bool false)) = specBoolField (pyDictGet m k) := by
  unfold pyDictGetD specBoolField
  cases pyDictGet m k <;> simp [pyTruthy]

theorem pyStr_pyDictGetD_str (m : List (String × Json)) (k : String) :
    pyStr (pyDictGetD m k (.str "")) = ((pyDictGet m k).map pyStr).getD "" := by
  unfold pyDictGetD
  cases pyDictGet m k <;> simp [pyStr]

theorem containsStr_intro (s sub pre suf : String) (h : s = pre ++ sub ++ suf) :
    containsStr s sub := by
  subst h
  exact ⟨pre.data, suf.data, by simp [List.append_assoc]⟩

theorem containsStr_nil (s : String) : containsStr s "" :=
  ⟨[], s.data, by simp⟩

/-! Claim C1. -/

/-- Claim C1 counterexample: on the object with a present but null
extracted_text field the code produces the Python string "None" (the
str() of None), while the claim's formula str(field or "") produces the
empty string, so the claimed equality fails at this input. -/
theorem c1_null_text_counterexample :
    validateResponse "\x7b\"extracted_text\": null\x7d" =
      .ok { weapon_detected := false, gun_detected := false,
            knife_detected := false, extracted_text := "None" } ∧
    specStrField (pyDictGet [("extracted_text", Json.null)] "extracted_text") = "" ∧
    ("None" : String) ≠ "" := by
  refine ⟨by rfl, by rfl, by decide⟩

/-- Claim C1 (amended): for every parsed JSON object the three boolean
fields follow the spec formula bool(field or False), while extracted_text
is str(field) for a present field and "" only when the field is absent;
the input object with no members yields exactly the all-false, empty-text
result. -/
theorem c1_field_extraction (raw : String) (members : List (String × Json))
    (h : parseJsonStr (cleanText raw) = some (.obj members)) :
    validateResponse raw = .ok
      { weapon_detected := specBoolField (pyDictGet members "weapon_detected")
      , gun_detected := specBoolField (pyDictGet members "gun_detected")
      , knife_detected := specBoolField (pyDictGet members "knife_detected")
      , extracted_text := ((pyDictGet members "extracted_text").map pyStr).getD "" } ∧
    validateResponse "\x7b\x7d" = .ok
      { weapon_detected := false, gun_detected := false,
        knife_detected := false, extracted_text := "" } := by
  constructor
  · simp only [validateResponse, h]
    rw [pyTruthy_pyDictGetD_bool, pyTruthy_pyDictGetD_bool, pyTruthy_pyDictGetD_bool,
      pyStr_pyDictGetD_str]
  · rfl

/-- Witness for C1's amended theorem at a concrete input holding one null
field and one true field. -/
theorem c1_field_extraction_witness :
    validateResponse "\x7b\"weapon_detected\": true, \"extracted_text\": null\x7d" = .ok
      { weapon_detected := specBoolField (pyDictGet
          [("weapon_detected", Json.bool true), ("extracted_text", Json.null)] "weapon_detected")
      , gun_detected := specBoolField (pyDictGet
          [("weapon_detected", Json.bool true), ("extracted_text", Json.null)] "gun_detected")
      , knife_detected := specBoolField (pyDictGet
          [("weapon_detected", Json.bool true), ("extracted_text", Json.null)] "knife_detected")
      , extracted_text := ((pyDictGet
          [("weapon_detected", Json.bool true), ("extracted_text", Json.null)] "extracted_text").map
            pyStr).getD "" } ∧
    validateResponse "\x7b\x7d" = .ok
      { weapon_detected := false, gun_detected := false,
        knife_detected := false, extracted_text := "" } :=
  c1_field_extraction "\x7b\"weapon_detected\": true, \"extracted_text\": null\x7d"
    [("weapon_detected", Json.bool true), ("extracted_text", Json.null)] (by rfl)

/-! Claim C4. -/

/-- Claim C4: whenever the cleaned backend text fails to parse as JSON the
validator fails with malformedResponse, an error distinct from every
backendUnavailable error, it never returns a default result, and the HTTP
layer maps it to status 500 with the detail string naming invalid JSON
from the model. -/
theorem c4_malformed_response (raw_text : String)
    (h : parseJsonStr (cleanText raw_text) = none) :
    validateResponse raw_text = .error .malformedResponse ∧
    (∀ r : DetectionResult, validateResponse raw_text ≠ .ok r) ∧
    (∀ msg, Err.malformedResponse ≠ Err.backendUnavailable msg) ∧
    httpOf (.error .malformedResponse) =
      .failure 500 "Invalid JSON format returned from the AI model." := by
  refine ⟨?_, ?_, ?_, ?_⟩
  · simp only [validateResponse, h]
  · intro r hc
    rw [show validateResponse raw_text = .error .malformedResponse by
      simp only [validateResponse, h]] at hc
    cases hc
  · intro msg hc
    cases hc
  · rfl

/-- Witness for C4 at a concrete unparsable backend text. -/
theorem c4_malformed_response_witness :
    validateResponse "I cannot analyze this image." = .error .malformedResponse ∧
    (∀ r : DetectionResult, validateResponse "I cannot analyze this image." ≠ .ok r) ∧
    (∀ msg, Err.malformedResponse ≠ Err.backendUnavailable msg) ∧
    httpOf (.error .malformedResponse) =
      .failure 500 "Invalid JSON format returned from the AI model." :=
  c4_malformed_response "I cannot analyze this image." (by rfl)

/-! Claim C5. -/

/-- Claim C5: when the image decodes but the backend yields no text, the
pipeline fails with emptyInferenceResult mapped to HTTP 500 with the
empty-or-blocked detail, and no notification attempt occurs. -/
theorem c5_empty_inference (image_base64 : String) (cfg : Config) (o : EmailOutcome)
    (text : Option String) (output_text : String)
    (himg : to_image_part image_base64 ≠ none)
    (h : (rawTextOf text output_text).data.isEmpty = true) :
    (analyze image_base64 cfg (.ok text output_text) o).response =
      .error .emptyInferenceResult ∧
    (analyze image_base64 cfg (.ok text output_text) o).notification = none ∧
    httpOf (analyze image_base64 cfg (.ok text output_text) o).response =
      .failure 500
        "Empty response received from the vision model. Content may be blocked by safety filters." := by
  cases hi : to_image_part image_base64 with
  | none => exact absurd hi himg
  | some part =>
    simp only [analyze, hi, h, if_pos]
    exact ⟨trivial, trivial, rfl⟩

/-- Witness for C5: a decodable payload and a backend response with the
text attribute absent and an empty output_text. -/
theorem c5_empty_inference_witness :
    (analyze "AAAA" ⟨"http://mail", "sec@example.com"⟩ (.ok none "") (.response true)).response =
      .error .emptyInferenceResult ∧
    (analyze "AAAA" ⟨"http://mail", "sec@example.com"⟩ (.ok none "") (.response true)).notification =
      none ∧
    httpOf (analyze "AAAA" ⟨"http://mail", "sec@example.com"⟩ (.ok none "")
        (.response true)).response =
      .failure 500
        "Empty response received from the vision model. Content may be blocked by safety filters." :=
  c5_empty_inference "AAAA" ⟨"http://mail", "sec@example.com"⟩ (.response true) none ""
    (by intro hc; cases hc) (by rfl)

/-! Claim C7. -/

/-- Claim C7: when the base64 body is malformed, to_image_part fails, the
failure propagates as decodeError, the pipeline returns HTTP 500, no
result is produced and no notification occurs. -/
theorem c7_decode_error (data_url : String)
    (h : b64decode (String.mk (b64Body data_url)) = none) :
    to_image_part data_url = none ∧
    (∀ cfg backend o,
      (analyze data_url cfg backend o).response = .error .decodeError ∧
      (analyze data_url cfg backend o).notification = none ∧
      httpOf (analyze data_url cfg backend o).response =
        .failure 500 (errDetail .decodeError)) := by
  have himg : to_image_part data_url = none := by
    simp only [to_image_part, h]
  refine ⟨himg, ?_⟩
  intro cfg backend o
  simp only [analyze, himg]
  exact ⟨trivial, trivial, rfl⟩

/-- Witness for C7: one character is not a multiple of four base64 digits,
the incorrect-padding failure of Python's base64.b64decode. -/
theorem c7_decode_error_witness :
    to_image_part "a" = none ∧
    (∀ cfg backend o,
      (analyze "a" cfg backend o).response = .error .decodeError ∧
      (analyze "a" cfg backend o).notification = none ∧
      httpOf (analyze "a" cfg backend o).response =
        .failure 500 (errDetail .decodeError)) :=
  c7_decode_error "a" (by rfl)

/-! Structural lemmas about the alert branch of analyze. -/

theorem analyze_ok_shape (p : String) (cfg : Config) (backend : BackendBehavior)
    (o : EmailOutcome) (r : DetectionResult)
    (h : (analyze p cfg backend o).response = .ok r) :
    (analyze p cfg backend o).notification =
      (if r.weapon_detected && !cfg.alertEmail.data.isEmpty then
        some ({ recipient := cfg.alertEmail
              , subject := "URGENT: Weapon Detected"
              , html := alertHtmlBody r.weapon_detected r.gun_detected r.knife_detected
                          r.extracted_text (imgSrcOf p) },
              send_email_via_smtp cfg.emailServiceUrl cfg.alertEmail
                "URGENT: Weapon Detected"
                (alertHtmlBody r.weapon_detected r.gun_detected r.knife_detected
                  r.extracted_text (imgSrcOf p)) o)
       else none) := by
  cases hi : to_image_part p with
  | none => simp [analyze, hi] at h
  | some part =>
    cases backend with
    | failure msg => simp [analyze, hi] at h
    | ok text output_text =>
      by_cases hr : (rawTextOf text output_text).data.isEmpty
      · simp [analyze, hi, hr] at h
      · cases hv : validateResponse (rawTextOf text output_text) with
        | error e => simp [analyze, hi, hr, hv] at h
        | ok r0 =>
          by_cases hw : (r0.weapon_detected && !cfg.alertEmail.data.isEmpty) = true
          · simp only [analyze, hi, hr, hv, hw, if_true, if_neg, Bool.not_eq_true] at h ⊢
            cases h
            simp [hw]
          · simp only [analyze, hi, hr, hv, hw, if_false, Bool.not_eq_true] at h ⊢
            cases h
            simp [hw]

theorem analyze_error_no_notification (p : String) (cfg : Config)
    (backend : BackendBehavior) (o : EmailOutcome) (e : Err)
    (h : (analyze p cfg backend o).response = .error e) :
    (analyze p cfg backend o).notification = none := by
  cases hi : to_image_part p with
  | none => simp [analyze, hi]
  | some part =>
    cases backend with
    | failure msg => simp [analyze, hi]
    | ok text output_text =>
      by_cases hr : (rawTextOf text output_text).data.isEmpty
      · simp [analyze, hi, hr]
      · cases hv : validateResponse (rawTextOf text output_text) with
        | error e0 => simp [analyze, hi, hr, hv]
        | ok r0 =>
          by_cases hw : (r0.weapon_detected && !cfg.alertEmail.data.isEmpty) = true
          · simp [analyze, hi, hr, hv, hw] at h
          · simp [analyze, hi, hr, hv, hw]

/-! Claim C3. -/

/-- Claim C3: the outcome of the notification attempt never affects the
analyze result: for any two notification-service URLs and any two delivery
outcomes, the response and its HTTP mapping coincide; and the notify
function never raises, returning false when no service URL is configured,
when the transport fails, and when the service answers without success. -/
theorem c3_notification_isolation (image_base64 : String) (url1 url2 email : String)
    (backend : BackendBehavior) (o1 o2 : EmailOutcome) :
    (analyze image_base64 ⟨url1, email⟩ backend o1).response =
      (analyze image_base64 ⟨url2, email⟩ backend o2).response ∧
    httpOf (analyze image_base64 ⟨url1, email⟩ backend o1).response =
      httpOf (analyze image_base64 ⟨url2, email⟩ backend o2).response ∧
    (∀ recipient subject html o,
      send_email_via_smtp "" recipient subject html o = false) ∧
    (∀ u recipient subject html,
      send_email_via_smtp u recipient subject html .failure = false) ∧
    (∀ u recipient subject html,
      send_email_via_smtp u recipient subject html (.response false) = false) := by
  have key : (analyze image_base64 ⟨url1, email⟩ backend o1).response =
      (analyze image_base64 ⟨url2, email⟩ backend o2).response := by
    cases hi : to_image_part image_base64 with
    | none => simp [analyze, hi]
    | some part =>
      cases backend with
      | failure msg => simp [analyze, hi]
      | ok text output_text =>
        by_cases hr : (rawTextOf text output_text).data.isEmpty
        · simp [analyze, hi, hr]
        · cases hv : validateResponse (rawTextOf text output_text) with
          | error e0 => simp [analyze, hi, hr, hv]
          | ok r0 =>
            by_cases hw : (r0.weapon_detected && !email.data.isEmpty) = true
            · simp [analyze, hi, hr, hv, hw]
            · simp [analyze, hi, hr, hv, hw]
  refine ⟨key, by rw [key], ?_, ?_, ?_⟩
  · intro recipient subject html o
    simp [send_email_via_smtp]
  · intro u recipient subject html
    by_cases hu : u.data.isEmpty <;> simp [send_email_via_smtp, hu]
  · intro u recipient subject html
    by_cases hu : u.data.isEmpty <;> simp [send_email_via_smtp, hu]

/-! Claim C6. -/

/-- Claim C6: the inferred MIME type is image/jpeg exactly when there is
no comma-delimited header or the header names jpeg or jpg, image/png for
every other input with a comma, always one of the two, and the image part
built by to_image_part carries exactly this inferred type. -/
theorem c6_mime_inference (s : String) :
    (inferMime s = "image/jpeg" ↔
      (',' ∉ s.data ∨
        "image/jpeg".data <:+: headerOf s ∨ "image/jpg".data <:+: headerOf s)) ∧
    (',' ∈ s.data →
      ¬ ("image/jpeg".data <:+: headerOf s ∨ "image/jpg".data <:+: headerOf s) →
      inferMime s = "image/png") ∧
    (inferMime s = "image/jpeg" ∨ inferMime s = "image/png") ∧
    (∀ part, to_image_part s = some part → part.mime_type = inferMime s) := by
  refine ⟨?_, ?_, ?_, ?_⟩
  · unfold inferMime
    by_cases hc : ',' ∈ s.data
    · by_cases hj : "image/jpeg".data <:+: headerOf s ∨ "image/jpg".data <:+: headerOf s
      · simp [hc, hj]
      · simp [hc, hj]
    · simp [hc]
  · intro hc hj
    unfold inferMime
    simp [hc, hj]
  · unfold inferMime
    by_cases hc : ',' ∈ s.data
    · by_cases hj : "image/jpeg".data <:+: headerOf s ∨ "image/jpg".data <:+: headerOf s
      · simp [hc, hj]
      · simp [hc, hj]
    · simp [hc]
  · intro part hp
    unfold to_image_part at hp
    cases hb : b64decode (String.mk (b64Body s)) with
    | none => rw [hb] at hp; cases hp
    | some bytes =>
      rw [hb] at hp
      cases hp
      rfl

/-- Witness for C6 at the three spec examples: a png data-URL, a jpeg
data-URL (through the iff) and a bare base64 string with no comma. -/
theorem c6_mime_inference_witness :
    inferMime "data:image/png;base64,iVBORw0KGgo=" = "image/png" ∧
    inferMime "data:image/jpeg;base64,/9j/4AAQ" = "image/jpeg" ∧
    inferMime "iVBORw0KGgo=" = "image/jpeg" :=
  ⟨(c6_mime_inference "data:image/png;base64,iVBORw0KGgo=").2.1 (by decide) (by decide),
   (c6_mime_inference "data:image/jpeg;base64,/9j/4AAQ").1.mpr (Or.inr (Or.inl (by decide))),
   (c6_mime_inference "iVBORw0KGgo=").1.mpr (Or.inl (by decide))⟩

/-! Claim C2. -/

/-- Claim C2: on a validated result the notifier is invoked exactly once
(the notification trace is some) exactly when a weapon was detected and a
recipient is configured; the alert then goes to the configured recipient
with the fixed subject "URGENT: Weapon Detected" and an HTML body
containing the rendered values of all four detection fields. -/
theorem c2_alert_condition (image_base64 : String) (cfg : Config)
    (backend : BackendBehavior) (o : EmailOutcome) (r : DetectionResult)
    (h : (analyze image_base64 cfg backend o).response = .ok r) :
    ((analyze image_base64 cfg backend o).notification.isSome ↔
      (r.weapon_detected = true ∧ cfg.alertEmail ≠ "")) ∧
    (∀ al succ, (analyze image_base64 cfg backend o).notification = some (al, succ) →
      al.recipient = cfg.alertEmail ∧
      al.subject = "URGENT: Weapon Detected" ∧
      containsStr al.html (pyBoolStr r.weapon_detected) ∧
      containsStr al.html (pyBoolStr r.gun_detected) ∧
      containsStr al.html (pyBoolStr r.knife_detected) ∧
      containsStr al.html r.extracted_text) := by
  have hshape := analyze_ok_shape image_base64 cfg backend o r h
  have hne : ∀ s : String, s.data.isEmpty = false ↔ s ≠ "" := by
    intro s
    cases hb : s.data.isEmpty
    · simp only [true_iff, ne_eq]
      intro hc
      rw [hc] at hb
      simp at hb
    · rw [string_isEmpty_iff] at hb
      simp [hb]
  constructor
  · rw [hshape]
    by_cases hw : (r.weapon_detected && !cfg.alertEmail.data.isEmpty) = true
    · rw [if_pos hw]
      rw [Bool.and_eq_true, Bool.not_eq_true'] at hw
      simp only [Option.isSome_some, true_iff]
      exact ⟨hw.1, (hne _).mp hw.2⟩
    · rw [if_neg hw]
      simp only [Option.isSome_none, Bool.false_eq_true, false_iff]
      intro hcon
      apply hw
      rw [Bool.and_eq_true, Bool.not_eq_true']
      exact ⟨hcon.1, (hne _).mpr hcon.2⟩
  · intro al succ hns
    rw [hshape] at hns
    by_cases hw : (r.weapon_detected && !cfg.alertEmail.data.isEmpty) = true
    · rw [if_pos hw] at hns
      injection hns with hns
      injection hns with h1 h2
      subst h1
      subst h2
      refine ⟨rfl, rfl, ?_, ?_, ?_, ?_⟩
      · exact containsStr_intro _ _
          ("<h3>Security Alert</h3>" ++ "<p><strong>Weapon detected:</strong> ")
          ("</p>" ++ "<p><strong>Gun detected:</strong> " ++ pyBoolStr r.gun_detected ++
            "</p>" ++ "<p><strong>Knife detected:</strong> " ++ pyBoolStr r.knife_detected ++
            "</p>" ++ "<p><strong>Extracted text from image:</strong></p>" ++ "<pre>" ++
            (if r.extracted_text.data.isEmpty then "None" else r.extracted_text) ++
            "</pre>" ++ "<hr>" ++ "<h4>Snapshot Image:</h4>" ++ "<img src=\"" ++
            imgSrcOf image_base64 ++ "\" alt=\"Security Snapshot\"" ++
            " style=\"max-width: 600px; height: auto; border: 2px solid #ff0000; border-radius: 5px;\"/>")
          (by simp only [alertHtmlBody, String.append_assoc])
      · exact containsStr_intro _ _
          ("<h3>Security Alert</h3>" ++ "<p><strong>Weapon detected:</strong> " ++
            pyBoolStr r.weapon_detected ++ "</p>" ++ "<p><strong>Gun detected:</strong> ")
          ("</p>" ++ "<p><strong>Knife detected:</strong> " ++ pyBoolStr r.knife_detected ++
            "</p>" ++ "<p><strong>Extracted text from image:</strong></p>" ++ "<pre>" ++
            (if r.extracted_text.data.isEmpty then "None" else r.extracted_text) ++
            "</pre>" ++ "<hr>" ++ "<h4>Snapshot Image:</h4>" ++ "<img src=\"" ++
            imgSrcOf image_base64 ++ "\" alt=\"Security Snapshot\"" ++
            " style=\"max-width: 600px; height: auto; border: 2px solid #ff0000; border-radius: 5px;\"/>")
          (by simp only [alertHtmlBody, String.append_assoc])
      · exact containsStr_intro _ _
          ("<h3>Security Alert</h3>" ++ "<p><strong>Weapon detected:</strong> " ++
            pyBoolStr r.weapon_detected ++ "</p>" ++ "<p><strong>Gun detected:</strong> " ++
            pyBoolStr r.gun_detected ++ "</p>" ++ "<p><strong>Knife detected:</strong> ")
          ("</p>" ++ "<p><strong>Extracted text from image:</strong></p>" ++ "<pre>" ++
            (if r.extracted_text.data.isEmpty then "None" else r.extracted_text) ++
            "</pre>" ++ "<hr>" ++ "<h4>Snapshot Image:</h4>" ++ "<img src=\"" ++
            imgSrcOf image_base64 ++ "\" alt=\"Security Snapshot\"" ++
            " style=\"max-width: 600px; height: auto; border: 2px solid #ff0000; border-radius: 5px;\"/>")
          (by simp only [alertHtmlBody, String.append_assoc])
      · by_cases he : r.extracted_text.data.isEmpty
        · rw [string_isEmpty_iff] at he
          rw [he]
          exact containsStr_nil _
        · have he2 : ¬ r.extracted_text.data = [] := by
            intro hc
            apply he
            rw [hc]
            rfl
          exact containsStr_intro _ _
            ("<h3>Security Alert</h3>" ++ "<p><strong>Weapon detected:</strong> " ++
              pyBoolStr r.weapon_detected ++ "</p>" ++ "<p><strong>Gun detected:</strong> " ++
              pyBoolStr r.gun_detected ++ "</p>" ++ "<p><strong>Knife detected:</strong> " ++
              pyBoolStr r.knife_detected ++ "</p>" ++
              "<p><strong>Extracted text from image:</strong></p>" ++ "<pre>")
            ("</pre>" ++ "<hr>" ++ "<h4>Snapshot Image:</h4>" ++ "<img src=\"" ++
              imgSrcOf image_base64 ++ "\" alt=\"Security Snapshot\"" ++
              " style=\"max-width: 600px; height: auto; border: 2px solid #ff0000; border-radius: 5px;\"/>")
            (by simp only [alertHtmlBody, String.append_assoc, if_neg he])
    · rw [if_neg hw] at hns
      cases hns

/-- Witness for C2 on the spec's end-to-end example: weapon and gun true,
knife false, extracted text EXIT, recipient configured. -/
theorem c2_alert_condition_witness :
    ((analyze "AAAA" ⟨"http://mail", "sec@example.com"⟩
        (.ok (some "\x7b\"weapon_detected\": true, \"gun_detected\": true, \"knife_detected\": false, \"extracted_text\": \"EXIT\"\x7d") "")
        (.response true)).notification.isSome ↔
      ((true : Bool) = true ∧ ("sec@example.com" : String) ≠ "")) ∧
    (∀ al succ,
      (analyze "AAAA" ⟨"http://mail", "sec@example.com"⟩
        (.ok (some "\x7b\"weapon_detected\": true, \"gun_detected\": true, \"knife_detected\": false, \"extracted_text\": \"EXIT\"\x7d") "")
        (.response true)).notification = some (al, succ) →
      al.recipient = "sec@example.com" ∧
      al.subject = "URGENT: Weapon Detected" ∧
      containsStr al.html (pyBoolStr true) ∧
      containsStr al.html (pyBoolStr true) ∧
      containsStr al.html (pyBoolStr false) ∧
      containsStr al.html "EXIT") :=
  c2_alert_condition "AAAA" ⟨"http://mail", "sec@example.com"⟩
    (.ok (some "\x7b\"weapon_detected\": true, \"gun_detected\": true, \"knife_detected\": false, \"extracted_text\": \"EXIT\"\x7d") "")
    (.response true) ⟨true, true, false, "EXIT"⟩ (by rfl)

/-! Claim C10. -/

/-- Claim C10: the embedded image source of the alert body is the input
unchanged when it starts with data:image and the fixed jpeg data-URL
prefix concatenated with the input otherwise, independently of the MIME
type inferred by the decoder; every emitted alert body embeds exactly this
source in its img tag. -/
theorem c10_img_src (image_base64 : String) :
    ("data:image".data.isPrefixOf image_base64.data = true →
      imgSrcOf image_base64 = image_base64) ∧
    ("data:image".data.isPrefixOf image_base64.data = false →
      imgSrcOf image_base64 = "data:image/jpeg;base64," ++ image_base64) ∧
    (∀ cfg backend o al succ,
      (analyze image_base64 cfg backend o).notification = some (al, succ) →
      containsStr al.html ("<img src=\"" ++ imgSrcOf image_base64 ++ "\" alt=\"Security Snapshot\"")) := by
  refine ⟨?_, ?_, ?_⟩
  · intro hp
    simp only [imgSrcOf, hp, if_true]
  · intro hp
    simp only [imgSrcOf, hp, Bool.false_eq_true, if_false]
  · intro cfg backend o al succ hns
    cases hresp : (analyze image_base64 cfg backend o).response with
    | error e =>
      rw [analyze_error_no_notification image_base64 cfg backend o e hresp] at hns
      cases hns
    | ok r =>
      rw [analyze_ok_shape image_base64 cfg backend o r hresp] at hns
      by_cases hw : (r.weapon_detected && !cfg.alertEmail.data.isEmpty) = true
      · rw [if_pos hw] at hns
        injection hns with hns
        injection hns with h1 h2
        subst h1
        exact containsStr_intro _ _
          ("<h3>Security Alert</h3>" ++ "<p><strong>Weapon detected:</strong> " ++
            pyBoolStr r.weapon_detected ++ "</p>" ++ "<p><strong>Gun detected:</strong> " ++
            pyBoolStr r.gun_detected ++ "</p>" ++ "<p><strong>Knife detected:</strong> " ++
            pyBoolStr r.knife_detected ++ "</p>" ++
            "<p><strong>Extracted text from image:</strong></p>" ++ "<pre>" ++
            (if r.extracted_text.data.isEmpty then "None" else r.extracted_text) ++
            "</pre>" ++ "<hr>" ++ "<h4>Snapshot Image:</h4>")
          (" style=\"max-width: 600px; height: auto; border: 2px solid #ff0000; border-radius: 5px;\"/>")
          (by simp only [alertHtmlBody, String.append_assoc])
      · rw [if_neg hw] at hns
        cases hns

/-- Witness for C10: a payload with a png data-URL header that does not
start with data:image (leading space), so the decoder infers image/png
while the alert body would embed it re-prefixed as jpeg; and a payload
that already starts with data:image, kept unchanged. -/
theorem c10_img_src_witness :
    imgSrcOf " data:image/png;base64,AAAA" =
      "data:image/jpeg;base64," ++ " data:image/png;base64,AAAA" ∧
    inferMime " data:image/png;base64,AAAA" = "image/png" ∧
    imgSrcOf "data:image/png;base64,AAAA" = "data:image/png;base64,AAAA" :=
  ⟨(c10_img_src " data:image/png;base64,AAAA").2.1 (by rfl),
   by rfl,
   (c10_img_src "data:image/png;base64,AAAA").1 (by rfl)⟩

/-! Parser metatheory for the fence-cleanup claims: a successful JSON
parse begins with a value-start character and the consumed region ends
with a value-end character, so the stripped text of a parseable string
neither starts with a fence opener nor ends with a fence closer. -/

/-- Characters that can start a JSON value. -/
def isStartChar (c : Char) : Bool :=
  c == 'n' || c == 't' || c == 'f' || c == quoteChar || c == '-' ||
  isDigitChar c || c == '[' || c == '\x7b'

/-- Characters that can end the consumed region of a JSON value. -/
def isEndChar (c : Char) : Bool :=
  c == quoteChar || c == '\x7d' || c == ']' || c == 'e' || c == 'l' || isDigitChar c

/-- The input l is the rest plus a nonempty consumed region ending in a
value-end character. -/
def EndsWell (l rest : List Char) : Prop :=
  ∃ pre c, l = pre ++ c :: rest ∧ isEndChar c = true

theorem pyWs_toNat_le (c : Char) (h : isPyWs c = true) : c.toNat ≤ 32 := by
  simp only [isPyWs, Bool.or_eq_true, beq_iff_eq] at h
  rcases h with ((((h | h) | h) | h) | h) | h <;> subst h <;> decide

theorem startChar_toNat (c : Char) (h : isStartChar c = true) :
    33 ≤ c.toNat ∧ c.toNat ≠ 96 := by
  simp only [isStartChar, Bool.or_eq_true, beq_iff_eq] at h
  rcases h with ((((((h | h) | h) | h) | h) | h) | h) | h
  case inr => subst h; decide
  case inl.inr => subst h; decide
  case inl.inl.inr =>
    simp only [isDigitChar, Bool.and_eq_true, decide_eq_true_eq] at h
    omega
  all_goals (subst h; decide)

theorem endChar_toNat (c : Char) (h : isEndChar c = true) :
    33 ≤ c.toNat ∧ c.toNat ≠ 96 := by
  simp only [isEndChar, Bool.or_eq_true, beq_iff_eq] at h
  rcases h with ((((h | h) | h) | h) | h) | h
  case inr =>
    simp only [isDigitChar, Bool.and_eq_true, decide_eq_true_eq] at h
    omega
  all_goals (subst h; decide)

theorem startChar_not_pyWs (c : Char) (h : isStartChar c = true) : isPyWs c = false := by
  cases hw : isPyWs c
  · rfl
  · have := pyWs_toNat_le c hw
    have := (startChar_toNat c h).1
    omega

theorem endChar_not_pyWs (c : Char) (h : isEndChar c = true) : isPyWs c = false := by
  cases hw : isPyWs c
  · rfl
  · have := pyWs_toNat_le c hw
    have := (endChar_toNat c h).1
    omega

theorem startChar_ne_backtick (c : Char) (h : isStartChar c = true) : c ≠ backtickChar := by
  intro hc
  subst hc
  have := (startChar_toNat _ h).2
  exact this (by decide)

theorem endChar_ne_backtick (c : Char) (h : isEndChar c = true) : c ≠ backtickChar := by
  intro hc
  subst hc
  have := (endChar_toNat _ h).2
  exact this (by decide)

theorem jsonWs_pyWs (c : Char) (h : isJsonWs c = true) : isPyWs c = true := by
  simp only [isJsonWs, Bool.or_eq_true, beq_iff_eq] at h
  rcases h with ((h | h) | h) | h <;> subst h <;> decide

/-! Facts about skipWs. -/

theorem skipWs_decomp (l : List Char) :
    ∃ w, (∀ c ∈ w, isJsonWs c = true) ∧ l = w ++ skipWs l := by
  induction l with
  | nil => exact ⟨[], by simp, rfl⟩
  | cons a l ih =>
    by_cases ha : isJsonWs a = true
    · obtain ⟨w, hw, hl⟩ := ih
      refine ⟨a :: w, ?_, ?_⟩
      · intro c hc
        rcases List.mem_cons.mp hc with h | h
        · subst h; exact ha
        · exact hw c h
      · simp only [skipWs, ha, if_true, List.cons_append]
        rw [← hl]
    · refine ⟨[], by simp, ?_⟩
      simp only [skipWs, ha, if_false, List.nil_append]
      simp [Bool.not_eq_true] at ha
      simp [ha]

theorem skipWs_all_ws (l : List Char) (h : skipWs l = []) :
    ∀ c ∈ l, isJsonWs c = true := by
  induction l with
  | nil => intro c hc; cases hc
  | cons a l ih =>
    intro c hc
    by_cases ha : isJsonWs a = true
    · simp only [skipWs, ha, if_true] at h
      rcases List.mem_cons.mp hc with hh | hh
      · subst hh; exact ha
      · exact ih h c hh
    · simp only [skipWs, ha] at h
      simp [Bool.not_eq_true] at ha
      simp [ha] at h

theorem skipWs_head_not (l : List Char) (c : Char) (r : List Char)
    (h : skipWs l = c :: r) : isJsonWs c = false := by
  induction l with
  | nil => cases h
  | cons a l ih =>
    by_cases ha : isJsonWs a = true
    · simp only [skipWs, ha, if_true] at h
      exact ih h
    · simp only [skipWs, ha] at h
      simp [Bool.not_eq_true] at ha
      simp [ha] at h
      rw [← h.1]
      exact ha

/-! Combinators for EndsWell. -/

theorem endsWell_here (c : Char) (rest : List Char) (h : isEndChar c = true) :
    EndsWell (c :: rest) rest :=
  ⟨[], c, rfl, h⟩

theorem endsWell_cons (a : Char) (l rest : List Char) (h : EndsWell l rest) :
    EndsWell (a :: l) rest := by
  obtain ⟨pre, c, hl, hc⟩ := h
  exact ⟨a :: pre, c, by rw [hl]; rfl, hc⟩

theorem endsWell_append (w l rest : List Char) (h : EndsWell l rest) :
    EndsWell (w ++ l) rest := by
  obtain ⟨pre, c, hl, hc⟩ := h
  exact ⟨w ++ pre, c, by rw [hl, List.append_assoc], hc⟩

theorem endsWell_skipWs (l rest : List Char) (h : EndsWell (skipWs l) rest) :
    EndsWell l rest := by
  obtain ⟨w, _, hl⟩ := skipWs_decomp l
  rw [hl]
  exact endsWell_append w _ rest h

theorem endsWell_trans (l mid rest : List Char)
    (h1 : EndsWell l mid) (h2 : EndsWell mid rest) : EndsWell l rest := by
  obtain ⟨p1, c1, hl1, _⟩ := h1
  obtain ⟨p2, c2, hl2, hc2⟩ := h2
  refine ⟨p1 ++ c1 :: p2, c2, ?_, hc2⟩
  rw [hl1, hl2]
  simp [List.append_assoc]

/-! Facts about the Python strip primitives. -/

theorem dropLead_cons_ws (a : Char) (l : List Char) (h : isPyWs a = true) :
    dropLead (a :: l) = dropLead l := by
  simp [dropLead, List.dropWhile, h]

theorem dropLead_cons_not (a : Char) (l : List Char) (h : isPyWs a = false) :
    dropLead (a :: l) = a :: l := by
  simp [dropLead, List.dropWhile, h]

theorem dropLead_append_ws (w l : List Char) (h : ∀ c ∈ w, isPyWs c = true) :
    dropLead (w ++ l) = dropLead l := by
  induction w with
  | nil => rfl
  | cons a w ih =>
    rw [List.cons_append, dropLead_cons_ws a _ (h a (by simp))]
    exact ih (fun c hc => h c (by simp [hc]))

theorem dropTrail_append_ws (l w : List Char) (h : ∀ c ∈ w, isPyWs c = true) :
    dropTrail (l ++ w) = dropTrail l := by
  unfold dropTrail
  rw [List.reverse_append]
  rw [show w.reverse ++ l.reverse = w.reverse ++ l.reverse from rfl]
  have : (w.reverse ++ l.reverse).dropWhile isPyWs = l.reverse.dropWhile isPyWs := by
    have hw : ∀ c ∈ w.reverse, isPyWs c = true := by
      intro c hc
      exact h c (List.mem_reverse.mp hc)
    exact dropLead_append_ws w.reverse l.reverse hw
  rw [this]

theorem dropTrail_append_not (l : List Char) (c : Char) (h : isPyWs c = false) :
    dropTrail (l ++ [c]) = l ++ [c] := by
  unfold dropTrail
  rw [List.reverse_append]
  simp only [List.reverse_cons, List.reverse_nil, List.nil_append, List.singleton_append]
  rw [List.dropWhile_cons_of_neg (by simp [h])]
  simp

theorem pyStrip_cons_ws (a : Char) (l : List Char) (h : isPyWs a = true) :
    pyStrip (a :: l) = pyStrip l := by
  unfold pyStrip
  rw [dropLead_cons_ws a l h]

theorem pyStrip_append_one_ws (l : List Char) (b : Char) (h : isPyWs b = true) :
    pyStrip (l ++ [b]) = pyStrip l := by
  induction l with
  | nil =>
    unfold pyStrip
    rw [show ([] : List Char) ++ [b] = [b] from rfl]
    rw [show dropLead [b] = [] from by simp [dropLead, List.dropWhile, h]]
    rfl
  | cons a l ih =>
    by_cases ha : isPyWs a = true
    · rw [List.cons_append, pyStrip_cons_ws a _ ha, pyStrip_cons_ws a l ha]
      exact ih
    · simp only [Bool.not_eq_true] at ha
      unfold pyStrip
      rw [List.cons_append, dropLead_cons_not a _ ha, dropLead_cons_not a l ha]
      rw [show a :: (l ++ [b]) = (a :: l) ++ [b] from rfl]
      exact dropTrail_append_ws (a :: l) [b] (by intro c hc; simp at hc; subst hc; exact h)

theorem dropTrail_cons_not (c : Char) (l : List Char) (h : isPyWs c = false) :
    ∃ r, dropTrail (c :: l) = c :: r := by
  unfold dropTrail
  rw [show (c :: l).reverse = l.reverse ++ [c] from by simp]
  have : ∃ m, (l.reverse ++ [c]).dropWhile isPyWs = m ++ [c] := by
    induction l.reverse with
    | nil => exact ⟨[], by simp [List.dropWhile, h]⟩
    | cons a w ih =>
      by_cases ha : isPyWs a = true
      · obtain ⟨m, hm⟩ := ih
        rw [List.cons_append, List.dropWhile_cons_of_pos (by simp [ha])]
        exact ⟨m, hm⟩
      · simp only [Bool.not_eq_true] at ha
        rw [List.cons_append, List.dropWhile_cons_of_neg (by simp [ha])]
        exact ⟨a :: w, rfl⟩
  obtain ⟨m, hm⟩ := this
  rw [hm]
  exact ⟨m.reverse, by simp⟩

theorem pyStrip_eq_self (l : List Char)
    (h1 : ∀ c, l.head? = some c → isPyWs c = false)
    (h2 : ∀ c, l.getLast? = some c → isPyWs c = false) :
    pyStrip l = l := by
  cases l with
  | nil => rfl
  | cons a l =>
    unfold pyStrip
    rw [dropLead_cons_not a l (h1 a rfl)]
    have hne : a :: l ≠ [] := by simp
    have hsplit := List.dropLast_append_getLast hne
    rw [← hsplit]
    rw [dropTrail_append_not _ _ (h2 _ (by rw [← List.getLast?_eq_getLast (a :: l) hne]))]

/-! End-character invariants of the sub-parsers. -/

theorem parseStringBody_ends : ∀ (fuel : Nat) (cs s r : List Char),
    parseStringBody fuel cs = some (s, r) → EndsWell cs r := by
  intro fuel
  induction fuel with
  | zero => intro cs s r h; simp [parseStringBody] at h
  | succ n ih =>
    intro cs s r h
    match cs with
    | [] => simp [parseStringBody] at h
    | c :: rest =>
      simp only [parseStringBody] at h
      by_cases h1 : (c == quoteChar) = true
      · rw [if_pos h1] at h
        injection h with h
        injection h with hs hr
        subst hr
        have hc : c = quoteChar := by simpa using h1
        subst hc
        exact endsWell_here quoteChar rest (by decide)
      · rw [if_neg h1] at h
        by_cases h2 : (c == backslashChar) = true
        · rw [if_pos h2] at h
          cases rest with
          | nil => exact absurd h (by simp)
          | cons e rest2 =>
            simp only at h
            by_cases h3 : (e == 'u') = true
            · rw [if_pos h3] at h
              match rest2, h with
              | g1 :: g2 :: g3 :: g4 :: rest3, h => ?_
              case _ =>
                simp only at h
                cases hv1 : hexVal g1 with
                | none => rw [hv1] at h; exact absurd h (by simp)
                | some a1 =>
                rw [hv1] at h
                cases hv2 : hexVal g2 with
                | none => rw [hv2] at h; exact absurd h (by simp)
                | some a2 =>
                rw [hv2] at h
                cases hv3 : hexVal g3 with
                | none => rw [hv3] at h; exact absurd h (by simp)
                | some a3 =>
                rw [hv3] at h
                cases hv4 : hexVal g4 with
                | none => rw [hv4] at h; exact absurd h (by simp)
                | some a4 =>
                rw [hv4] at h
                simp only at h
                cases hps : parseStringBody n rest3 with
                | none => rw [hps] at h; exact absurd h (by simp)
                | some p =>
                  rw [hps] at h
                  simp only at h
                  injection h with h
                  injection h with hs hr
                  subst hr
                  have := ih rest3 p.1 p.2 (by rw [hps])
                  exact endsWell_cons c _ _ (endsWell_cons e _ _ (endsWell_cons g1 _ _
                    (endsWell_cons g2 _ _ (endsWell_cons g3 _ _ (endsWell_cons g4 _ _ this)))))
            · rw [if_neg h3] at h
              cases hec : escChar e with
              | none => rw [hec] at h; exact absurd h (by simp)
              | some ec =>
                rw [hec] at h
                simp only at h
                cases hps : parseStringBody n rest2 with
                | none => rw [hps] at h; exact absurd h (by simp)
                | some p =>
                  rw [hps] at h
                  simp only at h
                  injection h with h
                  injection h with hs hr
                  subst hr
                  have := ih rest2 p.1 p.2 (by rw [hps])
                  exact endsWell_cons c _ _ (endsWell_cons e _ _ this)
        · rw [if_neg h2] at h
          by_cases h4 : (c.toNat < 32)
          · rw [if_pos h4] at h
            exact absurd h (by simp)
          · rw [if_neg h4] at h
            cases hps : parseStringBody n rest with
            | none => rw [hps] at h; exact absurd h (by simp)
            | some p =>
              rw [hps] at h
              simp only at h
              injection h with h
              injection h with hs hr
              subst hr
              have := ih rest p.1 p.2 (by rw [hps])
              exact endsWell_cons c _ _ this

theorem ends_of_digits (l : List Char) (hne : l.takeWhile isDigitChar ≠ []) :
    EndsWell l (l.dropWhile isDigitChar) := by
  have hsplit := List.takeWhile_append_dropWhile isDigitChar l
  have hlast : isDigitChar ((l.takeWhile isDigitChar).getLast hne) = true :=
    List.mem_takeWhile_imp (List.getLast_mem hne)
  have hdec := List.dropLast_append_getLast hne
  refine ⟨(l.takeWhile isDigitChar).dropLast, (l.takeWhile isDigitChar).getLast hne, ?_, ?_⟩
  · have key : (l.takeWhile isDigitChar).dropLast ++
        ((l.takeWhile isDigitChar).getLast hne) :: (l.dropWhile isDigitChar) = l := by
      rw [← List.singleton_append, ← List.append_assoc, hdec, hsplit]
    exact key.symm
  · simp [isEndChar, hlast]

theorem parseNumber_ends (cs : List Char) (j : Json) (r : List Char)
    (h : parseNumber cs = some (j, r)) : EndsWell cs r := by
  unfold parseNumber at h
  simp only at h
  by_cases hneg : (cs.head? == some '-') = true
  · cases cs with
    | nil => simp at hneg
    | cons a t =>
      simp only [List.head?_cons, beq_iff_eq, Option.some.injEq] at hneg
      subst hneg
      have hb : ((Option.some '-' == some '-')) = true := by decide
      simp only [List.head?_cons, hb, if_true, List.tail_cons] at h
      by_cases he : (t.takeWhile isDigitChar).isEmpty = true
      · simp [he] at h
      · simp only [he, Bool.false_eq_true, if_false] at h
        by_cases hz : (decide (1 < (t.takeWhile isDigitChar).length) &&
            (t.takeWhile isDigitChar).head? == some '0') = true
        · simp [hz] at h
        · simp only [hz, Bool.false_eq_true, if_false, Option.some.injEq, Prod.mk.injEq] at h
          obtain ⟨hj, hr⟩ := h
          subst hr
          have hne : t.takeWhile isDigitChar ≠ [] := by
            intro hc
            rw [hc] at he
            exact he rfl
          exact endsWell_cons '-' _ _ (ends_of_digits t hne)
  · have hb : (cs.head? == some '-') = false := by
      cases hx : cs.head? == some '-'
      · rfl
      · exact absurd hx hneg
    simp only [hb, Bool.false_eq_true, if_false] at h
    by_cases he : (cs.takeWhile isDigitChar).isEmpty = true
    · simp [he] at h
    · simp only [he, Bool.false_eq_true, if_false] at h
      by_cases hz : (decide (1 < (cs.takeWhile isDigitChar).length) &&
          (cs.takeWhile isDigitChar).head? == some '0') = true
      · simp [hz] at h
      · simp only [hz, Bool.false_eq_true, if_false, Option.some.injEq, Prod.mk.injEq] at h
        obtain ⟨hj, hr⟩ := h
        subst hr
        have hne : cs.takeWhile isDigitChar ≠ [] := by
          intro hc
          rw [hc] at he
          exact he rfl
        exact ends_of_digits cs hne

theorem parseMember_ends (pv : List Char → Option (Json × List Char))
    (hpv : ∀ cs v r, pv cs = some (v, r) → EndsWell cs r) :
    ∀ cs kv r, parseMember pv cs = some (kv, r) → EndsWell cs r := by
  intro cs kv r h
  unfold parseMember at h
  split at h
  · simp at h
  next c rest =>
    by_cases h1 : (c == quoteChar) = true
    · rw [if_pos h1] at h
      split at h
      next k r1 hsb =>
        split at h
        next r2 hsw =>
          split at h
          next v q hq =>
            injection h with h
            injection h with hkv hr
            subst hr
            have e1 : EndsWell rest r1 := parseStringBody_ends _ rest k r1 hsb
            have e2 : EndsWell r2 q := endsWell_skipWs _ _ (hpv _ v q hq)
            obtain ⟨w, _, hdecomp⟩ := skipWs_decomp r1
            have e3 : EndsWell r1 q := by
              rw [hdecomp, hsw]
              exact endsWell_append w _ _ (endsWell_cons ':' _ _ e2)
            exact endsWell_cons c _ _ (endsWell_trans rest r1 q e1 e3)
          next => simp at h
        next => simp at h
      next => simp at h
    · rw [if_neg h1] at h
      simp at h

theorem parseArrLoop_ends (pv : List Char → Option (Json × List Char))
    (hpv : ∀ cs v r, pv cs = some (v, r) → EndsWell cs r) :
    ∀ fuel acc cs v r, parseArrLoop pv fuel acc cs = some (v, r) → EndsWell cs r := by
  intro fuel
  induction fuel with
  | zero => intro acc cs v r h; simp [parseArrLoop] at h
  | succ n ih =>
    intro acc cs v r h
    unfold parseArrLoop at h
    split at h
    next r0 =>
      injection h with h
      injection h with hv hr
      subst hr
      exact endsWell_here ']' r0 (by decide)
    next r0 =>
      split at h
      next v1 r1 hpv1 =>
        have e1 : EndsWell r0 r1 := endsWell_skipWs _ _ (hpv _ v1 r1 hpv1)
        have e2 : EndsWell r1 r := endsWell_skipWs _ _ (ih (v1 :: acc) (skipWs r1) v r h)
        exact endsWell_cons ',' _ _ (endsWell_trans r0 r1 r e1 e2)
      next => simp at h
    next => simp at h

theorem parseObjLoop_ends (pv : List Char → Option (Json × List Char))
    (hpv : ∀ cs v r, pv cs = some (v, r) → EndsWell cs r) :
    ∀ fuel acc cs v r, parseObjLoop pv fuel acc cs = some (v, r) → EndsWell cs r := by
  intro fuel
  induction fuel with
  | zero => intro acc cs v r h; simp [parseObjLoop] at h
  | succ n ih =>
    intro acc cs v r h
    unfold parseObjLoop at h
    split at h
    next r0 =>
      injection h with h
      injection h with hv hr
      subst hr
      exact endsWell_here '\x7d' r0 (by decide)
    next r0 =>
      split at h
      next kv r1 hm1 =>
        have e1 : EndsWell r0 r1 :=
          endsWell_skipWs _ _ (parseMember_ends pv hpv (skipWs r0) kv r1 hm1)
        have e2 : EndsWell r1 r := endsWell_skipWs _ _ (ih (kv :: acc) (skipWs r1) v r h)
        exact endsWell_cons ',' _ _ (endsWell_trans r0 r1 r e1 e2)
      next => simp at h
    next => simp at h

theorem parseVal_ends : ∀ (fuel : Nat) (cs : List Char) (v : Json) (r : List Char),
    parseVal fuel cs = some (v, r) → EndsWell cs r := by
  intro fuel
  induction fuel with
  | zero => intro cs v r h; simp [parseVal] at h
  | succ n ih =>
    intro cs v r h
    unfold parseVal at h
    split at h
    · simp at h
    next c rest =>
      by_cases h1 : (c == 'n') = true
      · rw [if_pos h1] at h
        split at h
        next r0 =>
          injection h with h
          injection h with hv hr
          subst hr
          exact endsWell_cons c _ _ (endsWell_cons 'u' _ _ (endsWell_cons 'l' _ _
            (endsWell_here 'l' r0 (by decide))))
        next => simp at h
      · rw [if_neg h1] at h
        by_cases h2 : (c == 't') = true
        · rw [if_pos h2] at h
          split at h
          next r0 =>
            injection h with h
            injection h with hv hr
            subst hr
            exact endsWell_cons c _ _ (endsWell_cons 'r' _ _ (endsWell_cons 'u' _ _
              (endsWell_here 'e' r0 (by decide))))
          next => simp at h
        · rw [if_neg h2] at h
          by_cases h3 : (c == 'f') = true
          · rw [if_pos h3] at h
            split at h
            next r0 =>
              injection h with h
              injection h with hv hr
              subst hr
              exact endsWell_cons c _ _ (endsWell_cons 'a' _ _ (endsWell_cons 'l' _ _
                (endsWell_cons 's' _ _ (endsWell_here 'e' r0 (by decide)))))
            next => simp at h
          · rw [if_neg h3] at h
            by_cases h4 : (c == quoteChar) = true
            · rw [if_pos h4] at h
              split at h
              next sk r1 hsb =>
                injection h with h
                injection h with hv hr
                subst hr
                exact endsWell_cons c _ _ (parseStringBody_ends _ rest sk r1 hsb)
              next => simp at h
            · rw [if_neg h4] at h
              by_cases h5 : (c == '-' || isDigitChar c) = true
              · rw [if_pos h5] at h
                exact parseNumber_ends _ v r h
              · rw [if_neg h5] at h
                by_cases h6 : (c == '[') = true
                · rw [if_pos h6] at h
                  split at h
                  next r0 hsw =>
                    injection h with h
                    injection h with hv hr
                    subst hr
                    obtain ⟨w, _, hdecomp⟩ := skipWs_decomp rest
                    have e0 : EndsWell rest r0 := by
                      rw [hdecomp, hsw]
                      exact endsWell_append w _ _ (endsWell_here ']' r0 (by decide))
                    exact endsWell_cons c _ _ e0
                  next hne =>
                    split at h
                    next v1 r1 hv1 =>
                      have e1 : EndsWell rest r1 :=
                        endsWell_skipWs _ _ (ih (skipWs rest) v1 r1 hv1)
                      have e2 : EndsWell r1 r :=
                        endsWell_skipWs _ _
                          (parseArrLoop_ends (parseVal n) (fun cs v r h => ih cs v r h)
                            n [v1] (skipWs r1) v r h)
                      exact endsWell_cons c _ _ (endsWell_trans rest r1 r e1 e2)
                    next => simp at h
                · rw [if_neg h6] at h
                  by_cases h7 : (c == '\x7b') = true
                  · rw [if_pos h7] at h
                    split at h
                    next r0 hsw =>
                      injection h with h
                      injection h with hv hr
                      subst hr
                      obtain ⟨w, _, hdecomp⟩ := skipWs_decomp rest
                      have e0 : EndsWell rest r0 := by
                        rw [hdecomp, hsw]
                        exact endsWell_append w _ _ (endsWell_here '\x7d' r0 (by decide))
                      exact endsWell_cons c _ _ e0
                    next hne =>
                      split at h
                      next kv r1 hm1 =>
                        have e1 : EndsWell rest r1 :=
                          endsWell_skipWs _ _
                            (parseMember_ends (parseVal n) (fun cs v r h => ih cs v r h)
                              (skipWs rest) kv r1 hm1)
                        have e2 : EndsWell r1 r :=
                          endsWell_skipWs _ _
                            (parseObjLoop_ends (parseVal n) (fun cs v r h => ih cs v r h)
                              n [kv] (skipWs r1) v r h)
                        exact endsWell_cons c _ _ (endsWell_trans rest r1 r e1 e2)
                      next => simp at h
                  · rw [if_neg h7] at h
                    simp at h

theorem parseVal_start : ∀ (fuel : Nat) (cs : List Char) (v : Json) (r : List Char),
    parseVal fuel cs = some (v, r) → ∃ c r2, cs = c :: r2 ∧ isStartChar c = true := by
  intro fuel cs v r h
  cases fuel with
  | zero => simp [parseVal] at h
  | succ n =>
    unfold parseVal at h
    split at h
    · simp at h
    next c rest =>
      refine ⟨c, rest, rfl, ?_⟩
      by_cases h1 : (c == 'n') = true
      · simp [isStartChar, h1]
      · rw [if_neg h1] at h
        by_cases h2 : (c == 't') = true
        · simp [isStartChar, h2]
        · rw [if_neg h2] at h
          by_cases h3 : (c == 'f') = true
          · simp [isStartChar, h3]
          · rw [if_neg h3] at h
            by_cases h4 : (c == quoteChar) = true
            · simp [isStartChar, h4]
            · rw [if_neg h4] at h
              by_cases h5 : (c == '-' || isDigitChar c) = true
              · rcases Bool.or_eq_true_iff.mp h5 with h5a | h5b
                · simp [isStartChar, h5a]
                · simp [isStartChar, h5b]
              · rw [if_neg h5] at h
                by_cases h6 : (c == '[') = true
                · simp [isStartChar, h6]
                · rw [if_neg h6] at h
                  by_cases h7 : (c == '\x7b') = true
                  · simp [isStartChar, h7]
                  · rw [if_neg h7] at h
                    simp at h

theorem pyStrip_of_parse (l : List Char) (v : Json) (h : parseJsonChars l = some v) :
    ∃ pre e c, pyStrip l = pre ++ [e] ∧ isEndChar e = true ∧
      (pre ++ [e]).head? = some c ∧ isStartChar c = true := by
  unfold parseJsonChars at h
  split at h
  next v0 rest hpv =>
    by_cases hre : (skipWs rest).isEmpty = true
    · obtain ⟨c, r2, hc, hcs⟩ := parseVal_start _ _ _ _ hpv
      obtain ⟨pre, e, hdecomp, he⟩ := parseVal_ends _ _ _ _ hpv
      have hrest : ∀ x ∈ rest, isJsonWs x = true :=
        skipWs_all_ws rest (List.isEmpty_iff.mp hre)
      obtain ⟨w, hw, hl⟩ := skipWs_decomp l
      have hc_not : isPyWs c = false := startChar_not_pyWs c hcs
      have hd1 : dropLead l = skipWs l := by
        conv_lhs => rw [hl]
        rw [dropLead_append_ws w _ (fun x hx => jsonWs_pyWs x (hw x hx))]
        rw [hc, dropLead_cons_not c r2 hc_not, ← hc]
      have hd2 : dropTrail (skipWs l) = pre ++ [e] := by
        rw [hdecomp]
        rw [show pre ++ e :: rest = (pre ++ [e]) ++ rest from by simp]
        rw [dropTrail_append_ws _ rest (fun x hx => jsonWs_pyWs x (hrest x hx))]
        exact dropTrail_append_not pre e (endChar_not_pyWs e he)
      have hhead : (pre ++ [e]).head? = some c := by
        have hcomb : pre ++ e :: rest = c :: r2 := by rw [← hdecomp, hc]
        cases pre with
        | nil =>
          simp only [List.nil_append, List.cons.injEq] at hcomb
          simp [hcomb.1]
        | cons p pre2 =>
          simp only [List.cons_append, List.cons.injEq] at hcomb
          simp [hcomb.1]
      exact ⟨pre, e, c, by unfold pyStrip; rw [hd1, hd2], he, hhead, hcs⟩
    · rw [if_neg hre] at h
      cases h
  next => simp at h

theorem cleanChars_of_parse (l : List Char) (v : Json) (h : parseJsonChars l = some v) :
    cleanChars l = pyStrip l := by
  obtain ⟨pre, e, c, hstrip, he, hhead, hcs⟩ := pyStrip_of_parse l v h
  unfold cleanChars
  rw [hstrip]
  have hp : ¬ ("```json".data <+: pre ++ [e]) := by
    intro hpx
    obtain ⟨tl, ht⟩ := hpx
    have h96 : ("```json".data ++ tl).head? = some backtickChar := by
      rw [List.head?_append]
      rw [show "```json".data.head? = some backtickChar from by decide]
      rfl
    rw [ht, hhead] at h96
    injection h96 with h96
    exact startChar_ne_backtick c hcs h96
  rw [show removePrefixL "```json".data (pre ++ [e]) = pre ++ [e] from by
    unfold removePrefixL; rw [if_neg hp]]
  have hs : ¬ ("```".data <:+ pre ++ [e]) := by
    intro hsx
    obtain ⟨tl, ht⟩ := hsx
    have h96 : (tl ++ "```".data).getLast? = some backtickChar := by
      rw [List.getLast?_append]
      rw [show "```".data.getLast? = some backtickChar from by decide]
      rfl
    rw [ht, List.getLast?_concat] at h96
    injection h96 with h96
    exact endChar_ne_backtick e he h96
  rw [show removeSuffixL "```".data (pre ++ [e]) = pre ++ [e] from by
    unfold removeSuffixL; rw [if_neg hs]]
  exact pyStrip_eq_self _
    (fun x hx => by
      rw [hhead] at hx
      injection hx with hx
      rw [← hx]
      exact startChar_not_pyWs c hcs)
    (fun x hx => by
      rw [List.getLast?_concat] at hx
      injection hx with hx
      rw [← hx]
      exact endChar_not_pyWs e he)

theorem removePrefixL_append (p l : List Char) : removePrefixL p (p ++ l) = l := by
  unfold removePrefixL
  rw [if_pos ⟨l, rfl⟩]
  exact List.drop_left p l

theorem removeSuffixL_append (sfx l : List Char) : removeSuffixL sfx (l ++ sfx) = l := by
  unfold removeSuffixL
  rw [if_pos ⟨l, rfl⟩]
  rw [List.length_append, Nat.add_sub_cancel]
  exact List.take_left l sfx

theorem cleanChars_fence (t : String) :
    cleanChars ("```json\n" ++ t ++ "\n```").data = pyStrip t.data := by
  have hdata : ("```json\n" ++ t ++ "\n```").data =
      "```json".data ++ ((('\n' :: t.data) ++ ['\n']) ++ "```".data) := by
    rw [String.data_append, String.data_append]
    rw [show "```json\n".data = "```json".data ++ ['\n'] from by decide]
    rw [show "\n```".data = ['\n'] ++ "```".data from by decide]
    simp [List.append_assoc]
  unfold cleanChars
  rw [hdata]
  have hW : pyStrip ("```json".data ++ ((('\n' :: t.data) ++ ['\n']) ++ "```".data)) =
      "```json".data ++ ((('\n' :: t.data) ++ ['\n']) ++ "```".data) := by
    apply pyStrip_eq_self
    · intro x hx
      rw [List.head?_append] at hx
      rw [show "```json".data.head? = some backtickChar from by decide] at hx
      injection hx with hx
      rw [← hx]
      decide
    · intro x hx
      rw [List.getLast?_append, List.getLast?_append] at hx
      rw [show "```".data.getLast? = some backtickChar from by decide] at hx
      injection hx with hx
      rw [← hx]
      decide
  rw [hW]
  rw [removePrefixL_append]
  rw [removeSuffixL_append]
  rw [show ('\n' :: t.data) ++ ['\n'] = '\n' :: (t.data ++ ['\n']) from by simp]
  rw [pyStrip_cons_ws _ _ (by decide)]
  exact pyStrip_append_one_ws t.data '\n' (by decide)

/-! Claim C8. -/

/-- Claim C8: wrapping a parseable JSON text in a ```json markdown fence
does not change the validation result: the fence cleanup of line 145 maps
both the wrapped and the bare text to the same cleaned string. -/
theorem c8_fence_invariance (t : String) (h : (parseJsonStr t).isSome = true) :
    validateResponse ("```json\n" ++ t ++ "\n```") = validateResponse t := by
  obtain ⟨v, hv⟩ := Option.isSome_iff_exists.mp h
  have h1 := cleanChars_fence t
  have h2 : cleanChars t.data = pyStrip t.data := cleanChars_of_parse t.data v hv
  unfold validateResponse cleanText
  rw [h1, h2]

/-- Witness for C8 at a concrete JSON object. -/
theorem c8_fence_invariance_witness :
    validateResponse ("```json\n" ++ "\x7b\"weapon_detected\": true\x7d" ++ "\n```") =
      validateResponse "\x7b\"weapon_detected\": true\x7d" :=
  c8_fence_invariance "\x7b\"weapon_detected\": true\x7d" (by rfl)

/-! Claim C9. -/

theorem parseVal_backtick (fuel : Nat) (r : List Char) :
    parseVal fuel (backtickChar :: r) = none := by
  cases hpv : parseVal fuel (backtickChar :: r) with
  | none => rfl
  | some p =>
    obtain ⟨c, r2, hc, hcs⟩ := parseVal_start fuel (backtickChar :: r) p.1 p.2 (by rw [hpv])
    have hcb : c = backtickChar := by
      injection hc with h1 _
      exact h1.symm
    subst hcb
    exact absurd hcs (by decide)

theorem parseJsonChars_backtick (r : List Char) :
    parseJsonChars (backtickChar :: r) = none := by
  unfold parseJsonChars
  rw [show skipWs (backtickChar :: r) = backtickChar :: r from by
    simp [skipWs, show isJsonWs backtickChar = false from by decide]]
  rw [parseVal_backtick]

theorem cleanChars_bare_fence (t : String) :
    ∃ r, cleanChars ("```\n" ++ t ++ "\n```").data = backtickChar :: r := by
  have hdata : ("```\n" ++ t ++ "\n```").data =
      "```\n".data ++ ((t.data ++ ['\n']) ++ "```".data) := by
    rw [String.data_append, String.data_append]
    rw [show "\n```".data = ['\n'] ++ "```".data from by decide]
    simp [List.append_assoc]
  unfold cleanChars
  rw [hdata]
  have hW : pyStrip ("```\n".data ++ ((t.data ++ ['\n']) ++ "```".data)) =
      "```\n".data ++ ((t.data ++ ['\n']) ++ "```".data) := by
    apply pyStrip_eq_self
    · intro x hx
      rw [List.head?_append] at hx
      rw [show "```\n".data.head? = some backtickChar from by decide] at hx
      injection hx with hx
      rw [← hx]
      decide
    · intro x hx
      rw [List.getLast?_append, List.getLast?_append] at hx
      rw [show "```".data.getLast? = some backtickChar from by decide] at hx
      injection hx with hx
      rw [← hx]
      decide
  rw [hW]
  have hp : ¬ ("```json".data <+:
      "```\n".data ++ ((t.data ++ ['\n']) ++ "```".data)) := by
    intro hpx
    rw [show "```json".data =
      backtickChar :: backtickChar :: backtickChar :: 'j' :: 's' :: 'o' :: 'n' :: []
      from by decide] at hpx
    rw [show "```\n".data = backtickChar :: backtickChar :: backtickChar :: '\n' :: []
      from by decide] at hpx
    simp only [List.cons_append, List.nil_append, List.cons_prefix_cons] at hpx
    obtain ⟨_, _, _, hj, _⟩ := hpx
    exact absurd hj (by decide)
  rw [show removePrefixL "```json".data
      ("```\n".data ++ ((t.data ++ ['\n']) ++ "```".data)) =
      "```\n".data ++ ((t.data ++ ['\n']) ++ "```".data) from by
    unfold removePrefixL; rw [if_neg hp]]
  rw [show "```\n".data ++ ((t.data ++ ['\n']) ++ "```".data) =
      ("```\n".data ++ (t.data ++ ['\n'])) ++ "```".data from by
    simp [List.append_assoc]]
  rw [removeSuffixL_append]
  rw [show "```\n".data ++ (t.data ++ ['\n']) =
      backtickChar :: ("``\n".data ++ (t.data ++ ['\n'])) from by
    rw [show "```\n".data = backtickChar :: "``\n".data from by decide]
    rfl]
  unfold pyStrip
  rw [dropLead_cons_not _ _ (by decide)]
  exact dropTrail_cons_not backtickChar _ (by decide)

/-- Claim C9: a backend response wrapped in a bare markdown fence without
the json language tag is not cleaned back to its payload: the cleanup
leaves the leading fence in place for every payload, so validation always
fails with the malformed-JSON error mapped to HTTP 500. -/
theorem c9_bare_fence (t : String) :
    validateResponse ("```\n" ++ t ++ "\n```") = .error .malformedResponse ∧
    httpOf (.error .malformedResponse) =
      .failure 500 "Invalid JSON format returned from the AI model." := by
  obtain ⟨r, hr⟩ := cleanChars_bare_fence t
  constructor
  · have hnone : parseJsonStr (String.mk (backtickChar :: r)) = none :=
      parseJsonChars_backtick r
    simp only [validateResponse, cleanText, hr, hnone]
  · rfl

/-- Witness for C3 at a concrete pipeline run: a weapon detection whose
HTTP result is identical under a succeeding and an exception-raising
notification call and under two different service URLs. -/
theorem c3_notification_isolation_witness :
    (analyze "AAAA" ⟨"http://mail", "sec@example.com"⟩
        (.ok (some "\x7b\"weapon_detected\": true\x7d") "") (.response true)).response =
      (analyze "AAAA" ⟨"", "sec@example.com"⟩
        (.ok (some "\x7b\"weapon_detected\": true\x7d") "") .failure).response ∧
    httpOf (analyze "AAAA" ⟨"http://mail", "sec@example.com"⟩
        (.ok (some "\x7b\"weapon_detected\": true\x7d") "") (.response true)).response =
      httpOf (analyze "AAAA" ⟨"", "sec@example.com"⟩
        (.ok (some "\x7b\"weapon_detected\": true\x7d") "") .failure).response ∧
    (∀ recipient subject html o,
      send_email_via_smtp "" recipient subject html o = false) ∧
    (∀ u recipient subject html,
      send_email_via_smtp u recipient subject html .failure = false) ∧
    (∀ u recipient subject html,
      send_email_via_smtp u recipient subject html (.response false) = false) :=
  c3_notification_isolation "AAAA" "http://mail" "" "sec@example.com"
    (.ok (some "\x7b\"weapon_detected\": true\x7d") "") (.response true) .failure

end WeaponOCR
